import Mathlib

/-!
Shallow embedding of the response-normalization core of the LessWrong API
client (`src/lib.rs`).  The transport layer (reqwest) is out of scope; the
embedding models the pure mapping from a parsed GraphQL response envelope to
the domain types `Post` and `Comment`, exactly as `get_post` and
`get_comments` perform it after `try_get_json` returns.

Representation choices, all value-preserving pass-throughs:
* `DateTime<Utc>` timestamps and the `f64` scores (`base_score`, `vote_count`)
  are never inspected or combined by the mapper, only moved verbatim from the
  raw response into the domain record, so they are embedded as opaque `Int`
  carriers.
* Rust `Option<T>` is `Option`; `Result<T, Error>` with `?` is the `Except`
  monad; `ok_or` is embedded literally.
* A Rust panic inside the comments mapping closure aborts the whole
  `get_comments` call; it is embedded as an `Except` error distinct from the
  `Error` enum (`CommentsFailure.panic`), carrying which `expect`/`panic!`
  branch fired.
* The `HashMap<String, Comment>` built by `collect()` is embedded as a
  key-unique association list with insert-overwrite semantics (Rust's
  `FromIterator for HashMap` inserts the pairs in iteration order, later keys
  overwriting earlier ones); lookup is `List.lookup`.
-/

namespace LW

/-- Error enum from `src/lib.rs`.  `Reqwest` and `ServerError` belong to the
transport layer and are never produced by the mapping code modelled here. -/
inductive Error where
  | Reqwest (msg : String)
  | ServerError (status : Nat) (body : String)
  | NotFound
  | MalformattedResponse (field : String)
deriving DecidableEq, Repr

/-- Domain type `Post` from `src/lib.rs`. -/
structure Post where
  id : String
  title : String
  author : String
  date : Int
  content_html : String
  content_markdown : String
  slug : String
  page_url : String
  base_score : Int
  word_count : Int
deriving DecidableEq, Repr

/-- Domain type `Comment` from `src/lib.rs`. -/
structure Comment where
  id : String
  parent_comment_id : Option String
  author : String
  posted_at : Int
  page_url : String
  base_score : Int
  vote_count : Int
  content_html : String
  content_markdown : String
deriving DecidableEq, Repr

/-- The nested user reference of the generated GraphQL response types: only
its `display_name` is read (`u.display_name` in both mappers). -/
structure RawUser where
  display_name : Option String
deriving DecidableEq, Repr

/-- The nested `contents` object: only `markdown` is read. -/
structure RawContents where
  markdown : Option String
deriving DecidableEq, Repr

/-- The raw post payload of the post query response, with exactly the fields
and optionality `get_post` consumes.  `page_url` is the one non-optional
field: the source reads `post_data.page_url` with no `ok_or`. -/
structure RawPost where
  id : Option String
  title : Option String
  author : Option String
  posted_at : Option Int
  slug : Option String
  page_url : String
  base_score : Option Int
  word_count : Option Int
  contents : Option RawContents
  user : Option RawUser
  html_body : Option String
deriving DecidableEq, Repr

/-- Level `response.data.post` of the post query envelope. -/
structure PostLookup where
  result : Option RawPost
deriving DecidableEq, Repr

/-- Level `response.data` of the post query envelope. -/
structure PostData where
  post : Option PostLookup
deriving DecidableEq, Repr

/-- The post query response envelope (`Response<post_query::ResponseData>`). -/
structure PostResponse where
  data : Option PostData
deriving DecidableEq, Repr

/-- Rust's `Option::ok_or` followed by `?`: `some a` continues with `a`,
`none` short-circuits with error `e`. -/
def ok_or {ε α : Type} (o : Option α) (e : ε) : Except ε α :=
  match o with
  | some a => Except.ok a
  | none => Except.error e

/-- Rust's eager `Option::or`. -/
def orOpt {α : Type} (a b : Option α) : Option α :=
  match a with
  | some x => some x
  | none => b

/-- The pure mapping performed by `LessWrongApiClient::get_post` on a parsed
envelope.  Sequencing mirrors the source exactly: the `data`/`post`/`result`
prelude, then `contents`, then `username`, then the `Post` struct literal
whose fields Rust evaluates in the written order
(id, title, author, date, slug, page_url, base_score, word_count,
content_markdown, content_html). -/
def get_post (response : PostResponse) : Except Error Post := do
  let d ← ok_or response.data (Error.MalformattedResponse "data")
  let lookup ← ok_or d.post Error.NotFound
  let post_data ← ok_or lookup.result (Error.MalformattedResponse "post")
  let contents ← ok_or post_data.contents (Error.MalformattedResponse "post.contents")
  let username := post_data.user.bind RawUser.display_name
  let id ← ok_or post_data.id (Error.MalformattedResponse "post.id")
  let title ← ok_or post_data.title (Error.MalformattedResponse "post.title")
  let author ← ok_or (orOpt post_data.author username) (Error.MalformattedResponse "post.author")
  let date ← ok_or post_data.posted_at (Error.MalformattedResponse "post.posted_at")
  let slug ← ok_or post_data.slug (Error.MalformattedResponse "post.slug")
  let page_url := post_data.page_url
  let base_score ← ok_or post_data.base_score (Error.MalformattedResponse "post.base_score")
  let word_count ← ok_or post_data.word_count (Error.MalformattedResponse "post.word_count")
  let content_markdown ← ok_or contents.markdown (Error.MalformattedResponse "post.contents.markdown")
  let content_html ← ok_or post_data.html_body (Error.MalformattedResponse "post.html_body")
  return { id := id, title := title, author := author, date := date,
           content_html := content_html, content_markdown := content_markdown,
           slug := slug, page_url := page_url, base_score := base_score,
           word_count := word_count }

/-- The raw comment payload of the comments query response, with exactly the
fields and optionality `get_comments` consumes. -/
structure RawComment where
  id : Option String
  parent_comment_id : Option String
  author : Option String
  posted_at : Option Int
  page_url : Option String
  base_score : Option Int
  vote_count : Option Int
  html_body : Option String
  deleted : Option Bool
  contents : Option RawContents
  user : Option RawUser
deriving DecidableEq, Repr

/-- Level `response.data.comments` of the comments query envelope. -/
structure CommentsContainer where
  results : Option (List (Option RawComment))
deriving DecidableEq, Repr

/-- Level `response.data` of the comments query envelope. -/
structure CommentsData where
  comments : Option CommentsContainer
deriving DecidableEq, Repr

/-- The comments query response envelope. -/
structure CommentsResponse where
  data : Option CommentsData
deriving DecidableEq, Repr

/-- The `expect`/`panic!` branches inside the `get_comments` mapping closure,
in source order; each carries the comment's `page_url` where the source
interpolates it into the panic message (the first fires before `page_url` is
known). -/
inductive CommentPanic where
  | page_url_missing
  | markdown_missing (page_url : String)
  | id_missing (page_url : String)
  | posted_at_missing (page_url : String)
  | base_score_missing (page_url : String)
  | vote_count_missing (page_url : String)
  | html_body_missing (page_url : String)
deriving DecidableEq, Repr

/-- How a `get_comments` call can fail: with a returned `Error`, or by a
panic aborting the whole batch. -/
inductive CommentsFailure where
  | apiError (e : Error)
  | panic (p : CommentPanic)
deriving DecidableEq, Repr

/-- Lifting `ok_or` to the comments pipeline failure type. -/
def ok_orC {α : Type} (o : Option α) (e : Error) : Except CommentsFailure α :=
  match o with
  | some a => Except.ok a
  | none => Except.error (CommentsFailure.apiError e)

/-- Rust `expect`/`unwrap_or_else(panic!)` on an `Option`. -/
def expectP {α : Type} (o : Option α) (p : CommentPanic) : Except CommentsFailure α :=
  match o with
  | some a => Except.ok a
  | none => Except.error (CommentsFailure.panic p)

/-- The filter predicate of `get_comments`:
`!c.deleted.unwrap_or(false) && c.html_body.is_some() &&
 !c.html_body.as_ref().unwrap().is_empty()`. -/
def keepComment (c : RawComment) : Bool :=
  !(c.deleted.getD false) &&
    (match c.html_body with
     | some s => !s.isEmpty
     | none => false)

/-- The mapping closure of `get_comments`, applied to one surviving raw
comment.  Evaluation order mirrors the source: `page_url` expect,
`content_markdown` panic, `username`, then the `Comment` struct literal
(id, parent_comment_id, author, posted_at, base_score, vote_count,
content_html, content_markdown, page_url). -/
def mapComment (c : RawComment) : Except CommentsFailure Comment := do
  let page_url ← expectP c.page_url CommentPanic.page_url_missing
  let content_markdown ← expectP (c.contents.bind RawContents.markdown)
      (CommentPanic.markdown_missing page_url)
  let username := c.user.bind RawUser.display_name
  let id ← expectP c.id (CommentPanic.id_missing page_url)
  let author := (orOpt c.author username).getD "anonymous"
  let posted_at ← expectP c.posted_at (CommentPanic.posted_at_missing page_url)
  let base_score ← expectP c.base_score (CommentPanic.base_score_missing page_url)
  let vote_count ← expectP c.vote_count (CommentPanic.vote_count_missing page_url)
  let content_html ← expectP c.html_body (CommentPanic.html_body_missing page_url)
  return { id := id, parent_comment_id := c.parent_comment_id, author := author,
           posted_at := posted_at, page_url := page_url, base_score := base_score,
           vote_count := vote_count, content_html := content_html,
           content_markdown := content_markdown }

/-- Maps the filtered comments in order, fail-fast on the first panic (the
Rust iterator is consumed element by element by `collect`, and a panic aborts
the whole call), pairing each mapped comment with its own id as the source's
`(comment.id.clone(), comment)` does. -/
def mapPairs : List RawComment → Except CommentsFailure (List (String × Comment))
  | [] => Except.ok []
  | c :: rest => do
    let cm ← mapComment c
    let ps ← mapPairs rest
    return (cm.id, cm) :: ps

/-- Insert-with-overwrite into the association-list model of
`HashMap<String, Comment>`. -/
def insertComment : List (String × Comment) → String → Comment → List (String × Comment)
  | [], k, v => [(k, v)]
  | (k', v') :: rest, k, v =>
    if k' = k then (k, v) :: rest else (k', v') :: insertComment rest k v

/-- Rust's `collect::<HashMap<_, _>>()` on the pair iterator: insert the pairs in
iteration order, later keys overwriting earlier ones. -/
def fromPairs (ps : List (String × Comment)) : List (String × Comment) :=
  ps.foldl (fun m kv => insertComment m kv.1 kv.2) []

/-- The pure mapping performed by `LessWrongApiClient::get_comments` on a
parsed envelope: the `data`/`comments`/`results` prelude, `flatten` dropping
`none` slots, the `filter` on `keepComment`, the mapping closure, and the
`HashMap` collect. -/
def get_comments (response : CommentsResponse) :
    Except CommentsFailure (List (String × Comment)) := do
  let d ← ok_orC response.data (Error.MalformattedResponse "data")
  let container ← ok_orC d.comments (Error.MalformattedResponse "comments")
  let results ← ok_orC container.results (Error.MalformattedResponse "comments.results")
  let pairs ← mapPairs ((results.filterMap id).filter keepComment)
  return fromPairs pairs

instance {ε α : Type} [DecidableEq ε] [DecidableEq α] : DecidableEq (Except ε α) := fun a b =>
  match a, b with
  | Except.ok x, Except.ok y =>
    if h : x = y then Decidable.isTrue (by rw [h])
    else Decidable.isFalse (by intro hh; injection hh; contradiction)
  | Except.ok _, Except.error _ => Decidable.isFalse (by intro hh; injection hh)
  | Except.error _, Except.ok _ => Decidable.isFalse (by intro hh; injection hh)
  | Except.error e, Except.error e' =>
    if h : e = e' then Decidable.isTrue (by rw [h])
    else Decidable.isFalse (by intro hh; injection hh; contradiction)

/-- Wraps a raw post into a fully-present envelope
(`data`, `post`, `result` all present). -/
def mkPostEnv (p : RawPost) : PostResponse :=
  ⟨some ⟨some ⟨some p⟩⟩⟩

/-- Wraps a results list into a fully-present comments envelope
(`data`, `comments`, `results` all present). -/
def mkCommentsEnv (rs : List (Option RawComment)) : CommentsResponse :=
  ⟨some ⟨some ⟨some rs⟩⟩⟩

/-! ## Basic reduction lemmas for the `Except` pipeline -/

lemma ok_or_some {ε α : Type} (a : α) (e : ε) : ok_or (some a) e = Except.ok a := rfl

lemma ok_or_none {ε α : Type} (e : ε) : ok_or (none : Option α) e = Except.error e := rfl

lemma ok_orC_some {α : Type} (a : α) (e : Error) : ok_orC (some a) e = Except.ok a := rfl

lemma expectP_some {α : Type} (a : α) (p : CommentPanic) : expectP (some a) p = Except.ok a := rfl

lemma bind_ok {ε α β : Type} (a : α) (f : α → Except ε β) :
    (Except.ok a : Except ε α) >>= f = f a := rfl

lemma bind_error {ε α β : Type} (e : ε) (f : α → Except ε β) :
    (Except.error e : Except ε α) >>= f = Except.error e := rfl

lemma pure_ok {ε α : Type} (a : α) : (pure a : Except ε α) = Except.ok a := rfl

/-! ## Inversion: what a successful mapping says about the raw payload -/

/-- Inverting a successful `get_post`: every field of the returned `Post` is
the value extracted from the corresponding raw field. -/
lemma get_post_ok_inv (p : RawPost) (post : Post)
    (h : get_post (mkPostEnv p) = Except.ok post) :
    p.id = some post.id ∧ p.title = some post.title ∧
    orOpt p.author (p.user.bind RawUser.display_name) = some post.author ∧
    p.posted_at = some post.date ∧ p.slug = some post.slug ∧
    post.page_url = p.page_url ∧ p.base_score = some post.base_score ∧
    p.word_count = some post.word_count ∧
    (∃ ct, p.contents = some ct ∧ ct.markdown = some post.content_markdown) ∧
    p.html_body = some post.content_html := by
  simp only [get_post, mkPostEnv, ok_or_some, bind_ok] at h
  rcases hc : p.contents with _ | ct <;> rw [hc] at h
  · exact Except.noConfusion h
  simp only [ok_or_some, bind_ok] at h
  rcases hid : p.id with _ | i <;> rw [hid] at h
  · exact Except.noConfusion h
  simp only [ok_or_some, bind_ok] at h
  rcases hti : p.title with _ | t <;> rw [hti] at h
  · exact Except.noConfusion h
  simp only [ok_or_some, bind_ok] at h
  rcases hau : orOpt p.author (p.user.bind RawUser.display_name) with _ | au <;> rw [hau] at h
  · exact Except.noConfusion h
  simp only [ok_or_some, bind_ok] at h
  rcases hpa : p.posted_at with _ | pa <;> rw [hpa] at h
  · exact Except.noConfusion h
  simp only [ok_or_some, bind_ok] at h
  rcases hs : p.slug with _ | s <;> rw [hs] at h
  · exact Except.noConfusion h
  simp only [ok_or_some, bind_ok] at h
  rcases hbs : p.base_score with _ | bs <;> rw [hbs] at h
  · exact Except.noConfusion h
  simp only [ok_or_some, bind_ok] at h
  rcases hwc : p.word_count with _ | wc <;> rw [hwc] at h
  · exact Except.noConfusion h
  simp only [ok_or_some, bind_ok] at h
  rcases hmd : ct.markdown with _ | md <;> rw [hmd] at h
  · exact Except.noConfusion h
  simp only [ok_or_some, bind_ok] at h
  rcases hhb : p.html_body with _ | hb <;> rw [hhb] at h
  · exact Except.noConfusion h
  simp only [ok_or_some, bind_ok, pure_ok] at h
  injection h with h
  subst h
  exact ⟨rfl, rfl, rfl, rfl, rfl, rfl, rfl, rfl, ⟨ct, rfl, hmd⟩, rfl⟩

/-- Inverting a successful `mapComment`: every field of the produced
`Comment` is the value extracted from the corresponding raw field, and the
author is the two-stage fallback with default "anonymous". -/
lemma mapComment_ok_inv (c : RawComment) (cm : Comment)
    (h : mapComment c = Except.ok cm) :
    c.id = some cm.id ∧ cm.parent_comment_id = c.parent_comment_id ∧
    cm.author = (orOpt c.author (c.user.bind RawUser.display_name)).getD "anonymous" ∧
    c.posted_at = some cm.posted_at ∧ c.page_url = some cm.page_url ∧
    c.base_score = some cm.base_score ∧ c.vote_count = some cm.vote_count ∧
    c.html_body = some cm.content_html ∧
    c.contents.bind RawContents.markdown = some cm.content_markdown := by
  simp only [mapComment] at h
  rcases hpu : c.page_url with _ | pu <;> rw [hpu] at h
  · exact Except.noConfusion h
  simp only [expectP_some, bind_ok] at h
  rcases hmd : c.contents.bind RawContents.markdown with _ | md <;> rw [hmd] at h
  · exact Except.noConfusion h
  simp only [expectP_some, bind_ok] at h
  rcases hid : c.id with _ | i <;> rw [hid] at h
  · exact Except.noConfusion h
  simp only [expectP_some, bind_ok] at h
  rcases hpa : c.posted_at with _ | pa <;> rw [hpa] at h
  · exact Except.noConfusion h
  simp only [expectP_some, bind_ok] at h
  rcases hbs : c.base_score with _ | bs <;> rw [hbs] at h
  · exact Except.noConfusion h
  simp only [expectP_some, bind_ok] at h
  rcases hvc : c.vote_count with _ | vc <;> rw [hvc] at h
  · exact Except.noConfusion h
  simp only [expectP_some, bind_ok] at h
  rcases hhb : c.html_body with _ | hb <;> rw [hhb] at h
  · exact Except.noConfusion h
  simp only [expectP_some, bind_ok, pure_ok] at h
  injection h with h
  subst h
  exact ⟨rfl, rfl, rfl, rfl, rfl, rfl, rfl, rfl, rfl⟩

/-! ## The nine mandatory post fields and the envelopes missing exactly one -/

/-- The mandatory fields of the post mapper (besides `author`, which is
resolved from two sources, and `page_url`, which is unchecked). -/
inductive MandatoryField where
  | id
  | title
  | posted_at
  | slug
  | base_score
  | word_count
  | contents
  | contents_markdown
  | html_body
deriving DecidableEq, Repr

/-- The dotted error path the source names for each mandatory field. -/
def fieldPath : MandatoryField → String
  | MandatoryField.id => "post.id"
  | MandatoryField.title => "post.title"
  | MandatoryField.posted_at => "post.posted_at"
  | MandatoryField.slug => "post.slug"
  | MandatoryField.base_score => "post.base_score"
  | MandatoryField.word_count => "post.word_count"
  | MandatoryField.contents => "post.contents"
  | MandatoryField.contents_markdown => "post.contents.markdown"
  | MandatoryField.html_body => "post.html_body"

/-- A raw post with every field present (author possibly via either source). -/
def mkFullRawPost (i t : String) (a : Option String) (pa : Int) (s pu : String)
    (bs wc : Int) (md hb : String) (usr : Option RawUser) : RawPost :=
  { id := some i, title := some t, author := a, posted_at := some pa,
    slug := some s, page_url := pu, base_score := some bs, word_count := some wc,
    contents := some ⟨some md⟩, user := usr, html_body := some hb }

/-- Removes exactly one mandatory field from a raw post (for
`contents_markdown`, `contents` itself stays present). -/
def clearField : MandatoryField → RawPost → RawPost
  | MandatoryField.id, p => { p with id := none }
  | MandatoryField.title, p => { p with title := none }
  | MandatoryField.posted_at, p => { p with posted_at := none }
  | MandatoryField.slug, p => { p with slug := none }
  | MandatoryField.base_score, p => { p with base_score := none }
  | MandatoryField.word_count, p => { p with word_count := none }
  | MandatoryField.contents, p => { p with contents := none }
  | MandatoryField.contents_markdown, p => { p with contents := some ⟨none⟩ }
  | MandatoryField.html_body, p => { p with html_body := none }

/-- Claim C1 (amended): for every envelope in which `data`, the post lookup
and its result are present, the author is resolvable (the explicit author
field or the user display name is present), and exactly one mandatory post
field among id, title, posted_at, slug, base_score, word_count, contents,
contents.markdown and html_body is absent, `get_post` returns a
malformed-response error naming exactly the dotted path of that field and no
other. -/
theorem get_post_missing_field_exact_path
    (f : MandatoryField) (i t : String) (a : Option String) (pa : Int)
    (s pu : String) (bs wc : Int) (md hb : String) (usr : Option RawUser)
    (hauth : (orOpt a (usr.bind RawUser.display_name)).isSome = true) :
    get_post (mkPostEnv (clearField f (mkFullRawPost i t a pa s pu bs wc md hb usr))) =
      Except.error (Error.MalformattedResponse (fieldPath f)) := by
  rcases a with _ | a'
  · rcases usr with _ | ⟨_ | d⟩
    · exact absurd hauth (by decide)
    · exact absurd hauth (by decide)
    · cases f <;> rfl
  · cases f <;> rfl

/-- Witness for C1's theorem at a concrete envelope: all fields present
except `slug`, the explicit author present; the error names `post.slug`. -/
theorem get_post_missing_field_exact_path_witness :
    (orOpt (some "a") ((none : Option RawUser).bind RawUser.display_name)).isSome = true ∧
    get_post (mkPostEnv (clearField MandatoryField.slug
        (mkFullRawPost "i" "t" (some "a") 0 "s" "u" 1 2 "m" "h" none))) =
      Except.error (Error.MalformattedResponse "post.slug") :=
  ⟨rfl, get_post_missing_field_exact_path MandatoryField.slug "i" "t" (some "a") 0 "s" "u"
    1 2 "m" "h" none rfl⟩

/-- A raw post in which `slug` is the only one of the nine mandatory fields
absent, but both author sources are also absent. -/
def c1cexPost : RawPost :=
  { id := some "i", title := some "t", author := none, posted_at := some 0,
    slug := none, page_url := "u", base_score := some 1, word_count := some 2,
    contents := some ⟨some "m"⟩, user := none, html_body := some "h" }

/-- Counterexample to C1 as stated: in `c1cexPost` the envelope prelude is
fully present and `slug` is the only absent field among the nine listed, yet
`get_post` does not return the error naming `post.slug` — it returns the one
naming `post.author`, because both author sources are also absent and the
author check runs before the slug check. -/
theorem get_post_missing_field_cex :
    (c1cexPost.slug = none ∧ c1cexPost.id.isSome = true ∧
     c1cexPost.title.isSome = true ∧ c1cexPost.posted_at.isSome = true ∧
     c1cexPost.base_score.isSome = true ∧ c1cexPost.word_count.isSome = true ∧
     c1cexPost.contents.isSome = true ∧
     (c1cexPost.contents.bind RawContents.markdown).isSome = true ∧
     c1cexPost.html_body.isSome = true) ∧
    get_post (mkPostEnv c1cexPost) ≠ Except.error (Error.MalformattedResponse "post.slug") ∧
    get_post (mkPostEnv c1cexPost) = Except.error (Error.MalformattedResponse "post.author") := by
  refine ⟨by decide, ?_, rfl⟩
  decide

/-- Claim C3: the post-query prelude checks, in order: absent `data` gives
the malformed-response error naming `data`; present `data` with an absent
post lookup gives the not-found error; present lookup with an absent nested
result gives the malformed-response error naming `post`. -/
theorem get_post_prelude_order (resp : PostResponse) :
    (resp.data = none → get_post resp = Except.error (Error.MalformattedResponse "data")) ∧
    (∀ d, resp.data = some d → d.post = none → get_post resp = Except.error Error.NotFound) ∧
    (∀ d lk, resp.data = some d → d.post = some lk → lk.result = none →
      get_post resp = Except.error (Error.MalformattedResponse "post")) := by
  refine ⟨?_, ?_, ?_⟩
  · intro h
    rcases resp with ⟨d⟩
    cases h
    rfl
  · intro d h hp
    rcases resp with ⟨_⟩
    cases h
    rcases d with ⟨p⟩
    cases hp
    rfl
  · intro d lk h hp hr
    rcases resp with ⟨_⟩
    cases h
    rcases d with ⟨_⟩
    cases hp
    rcases lk with ⟨r⟩
    cases hr
    rfl

/-- Witness for C3's theorem at the three concrete prelude envelopes. -/
theorem get_post_prelude_order_witness :
    get_post ⟨none⟩ = Except.error (Error.MalformattedResponse "data") ∧
    get_post ⟨some ⟨none⟩⟩ = Except.error Error.NotFound ∧
    get_post ⟨some ⟨some ⟨none⟩⟩⟩ = Except.error (Error.MalformattedResponse "post") :=
  ⟨(get_post_prelude_order ⟨none⟩).1 rfl,
   (get_post_prelude_order ⟨some ⟨none⟩⟩).2.1 ⟨none⟩ rfl rfl,
   (get_post_prelude_order ⟨some ⟨some ⟨none⟩⟩⟩).2.2 ⟨some ⟨none⟩⟩ ⟨none⟩ rfl rfl rfl⟩

/-- A raw post with `data`, lookup, result, `contents`, `id` and `title`
present, both author sources absent, and the remaining mandatory fields
arbitrary (possibly absent). -/
def c5Post (i t : String) (pa : Option Int) (s : Option String) (pu : String)
    (bs wc : Option Int) (md : Option String) (usr : Option RawUser)
    (hb : Option String) : RawPost :=
  { id := some i, title := some t, author := none, posted_at := pa, slug := s,
    page_url := pu, base_score := bs, word_count := wc, contents := some ⟨md⟩,
    user := usr, html_body := hb }

/-- Claim C5 (amended): author resolution is fail-fast but runs after the
`id` and `title` extractions, not before all step-6 fields: for every
envelope in which `data`, the post lookup, its result, `contents`, `id` and
`title` are present and both author sources are absent, `get_post` returns
the malformed-response error naming `post.author`, regardless of whether the
later mandatory fields (posted_at, slug, base_score, word_count,
contents.markdown, html_body) are absent. -/
theorem get_post_author_error_precedes_later_fields
    (i t : String) (pa : Option Int) (s : Option String) (pu : String)
    (bs wc : Option Int) (md : Option String) (usr : Option RawUser)
    (hb : Option String)
    (husr : usr.bind RawUser.display_name = none) :
    get_post (mkPostEnv (c5Post i t pa s pu bs wc md usr hb)) =
      Except.error (Error.MalformattedResponse "post.author") := by
  rcases usr with _ | ⟨_ | d⟩
  · rfl
  · rfl
  · exact absurd husr (by simp [Option.bind])

/-- Witness for C5's theorem: id and title present, author sources absent,
every later mandatory field absent; the error still names `post.author`. -/
theorem get_post_author_error_precedes_later_fields_witness :
    ((none : Option RawUser).bind RawUser.display_name = none) ∧
    get_post (mkPostEnv (c5Post "i" "t" none none "u" none none none none none)) =
      Except.error (Error.MalformattedResponse "post.author") :=
  ⟨rfl, get_post_author_error_precedes_later_fields "i" "t" none none "u" none none
    none none none rfl⟩

/-- A raw post lacking both author sources and also lacking `id`, with
everything else present. -/
def c5cexPost : RawPost :=
  { id := none, title := some "t", author := none, posted_at := some 0,
    slug := some "s", page_url := "u", base_score := some 1, word_count := some 2,
    contents := some ⟨some "m"⟩, user := none, html_body := some "h" }

/-- Counterexample to C5 as stated: with `data`, lookup, result and
`contents` present and both author sources absent, `get_post` does not
return the `post.author` error when `id` is also absent — it returns the
`post.id` error, so author resolution does not precede every step-6 field. -/
theorem get_post_author_order_cex :
    c5cexPost.author = none ∧ c5cexPost.user = none ∧
    c5cexPost.contents.isSome = true ∧
    get_post (mkPostEnv c5cexPost) = Except.error (Error.MalformattedResponse "post.id") ∧
    get_post (mkPostEnv c5cexPost) ≠ Except.error (Error.MalformattedResponse "post.author") := by
  refine ⟨rfl, rfl, rfl, rfl, ?_⟩
  decide

/-- Claim C4 (amended): author resolution.  A post or comment lacking the
explicit author field but with a non-null user display name resolves to that
display name; a comment lacking both resolves to the literal "anonymous"; a
post lacking both never maps successfully, and the failure is the
malformed-response error naming `post.author` whenever `contents`, `id` and
`title` are present (fields checked before the author are reported first
otherwise). -/
theorem author_resolution_fallback :
    (∀ (p : RawPost) (post : Post) (d : String),
       p.author = none → p.user.bind RawUser.display_name = some d →
       get_post (mkPostEnv p) = Except.ok post → post.author = d) ∧
    (∀ (c : RawComment) (cm : Comment) (d : String),
       c.author = none → c.user.bind RawUser.display_name = some d →
       mapComment c = Except.ok cm → cm.author = d) ∧
    (∀ (c : RawComment) (cm : Comment),
       c.author = none → c.user.bind RawUser.display_name = none →
       mapComment c = Except.ok cm → cm.author = "anonymous") ∧
    (∀ (p : RawPost) (post : Post),
       p.author = none → p.user.bind RawUser.display_name = none →
       get_post (mkPostEnv p) ≠ Except.ok post) ∧
    (∀ (p : RawPost),
       p.author = none → p.user.bind RawUser.display_name = none →
       p.contents.isSome = true → p.id.isSome = true → p.title.isSome = true →
       get_post (mkPostEnv p) = Except.error (Error.MalformattedResponse "post.author")) := by
  refine ⟨?_, ?_, ?_, ?_, ?_⟩
  · intro p post d ha hd h
    obtain ⟨-, -, hau, -, -, -, -, -, -, -⟩ := get_post_ok_inv p post h
    rw [ha] at hau
    simp only [orOpt] at hau
    rw [hd] at hau
    exact (Option.some.inj hau).symm
  · intro c cm d ha hd h
    obtain ⟨-, -, hau, -, -, -, -, -, -⟩ := mapComment_ok_inv c cm h
    rw [ha, hd] at hau
    simpa only [orOpt, Option.getD] using hau
  · intro c cm ha hd h
    obtain ⟨-, -, hau, -, -, -, -, -, -⟩ := mapComment_ok_inv c cm h
    rw [ha, hd] at hau
    simpa only [orOpt, Option.getD] using hau
  · intro p post ha hd h
    obtain ⟨-, -, hau, -, -, -, -, -, -, -⟩ := get_post_ok_inv p post h
    rw [ha, hd] at hau
    simp only [orOpt] at hau
    exact Option.noConfusion hau
  · intro p ha hd hc hid hti
    rcases p with ⟨pid, pt, pauth, ppa, ps, purl, pbs, pwc, pc, pu, phb⟩
    rcases pc with _ | ct
    · exact absurd hc (by simp)
    rcases pid with _ | i
    · exact absurd hid (by simp)
    rcases pt with _ | t
    · exact absurd hti (by simp)
    rcases pauth with _ | a'
    · rcases pu with _ | ⟨_ | d⟩
      · rfl
      · rfl
      · exact absurd hd (by simp [Option.bind])
    · exact absurd ha (by simp)

/-- A raw comment lacking the explicit author field but with a user display
name, everything else present. -/
def c4DemoComment : RawComment :=
  { id := some "c1", parent_comment_id := none, author := none,
    posted_at := some 3, page_url := some "pu", base_score := some 1,
    vote_count := some 2, html_body := some "hb", deleted := some false,
    contents := some ⟨some "md"⟩, user := some ⟨some "Dana"⟩ }

/-- The comment `mapComment` produces for `c4DemoComment`. -/
def c4DemoMapped : Comment :=
  { id := "c1", parent_comment_id := none, author := "Dana", posted_at := 3,
    page_url := "pu", base_score := 1, vote_count := 2, content_html := "hb",
    content_markdown := "md" }

/-- Witness for C4's theorem: a concrete comment with no explicit author and
display name "Dana" maps to author "Dana". -/
theorem author_resolution_fallback_witness : c4DemoMapped.author = "Dana" :=
  author_resolution_fallback.2.1 c4DemoComment c4DemoMapped "Dana" rfl rfl rfl

/-- A raw post lacking both author sources and also lacking `contents`, with
every other field present. -/
def c4cexPost : RawPost :=
  { id := some "i", title := some "t", author := none, posted_at := some 0,
    slug := some "s", page_url := "u", base_score := some 1, word_count := some 2,
    contents := none, user := none, html_body := some "h" }

/-- Counterexample to C4 as stated: `c4cexPost` lacks both author sources, so
by the claim `get_post` should fail with the malformed-response error naming
`post.author`; it fails with the one naming `post.contents` instead, because
the `contents` check runs before author resolution. -/
theorem author_resolution_fallback_cex :
    c4cexPost.author = none ∧ c4cexPost.user = none ∧
    get_post (mkPostEnv c4cexPost) = Except.error (Error.MalformattedResponse "post.contents") ∧
    get_post (mkPostEnv c4cexPost) ≠ Except.error (Error.MalformattedResponse "post.author") := by
  refine ⟨rfl, rfl, rfl, ?_⟩
  decide

/-- Claim C6: `page_url` is copied verbatim from the raw post into the
returned `Post` with no presence check: replacing it with any value `u`
changes nothing but the `page_url` of a successful result (in particular it
can never switch the call between success and failure), and a successful
result's `page_url` equals the raw one. -/
theorem get_post_page_url_verbatim (p : RawPost) (u : String) :
    get_post (mkPostEnv { p with page_url := u }) =
      Except.map (fun post => { post with page_url := u }) (get_post (mkPostEnv p)) ∧
    ∀ post, get_post (mkPostEnv p) = Except.ok post → post.page_url = p.page_url := by
  constructor
  · rcases p with ⟨pid, pt, pauth, ppa, ps, purl, pbs, pwc, pc, pu, phb⟩
    rcases pc with _ | ⟨_ | md⟩ <;>
      rcases pid with _ | i <;>
      rcases pt with _ | t <;>
      rcases pauth with _ | a <;>
      rcases pu with _ | ⟨_ | d⟩ <;>
      rcases ppa with _ | pa <;>
      rcases ps with _ | s <;>
      rcases pbs with _ | bs <;>
      rcases pwc with _ | wc <;>
      rcases phb with _ | hb <;>
      rfl
  · intro post h
    obtain ⟨-, -, -, -, -, hu, -, -, -, -⟩ := get_post_ok_inv p post h
    exact hu

/-- A raw post with every field present via the explicit author. -/
def demoRawPost : RawPost :=
  { id := some "i", title := some "t", author := some "a", posted_at := some 5,
    slug := some "s", page_url := "u", base_score := some 1, word_count := some 2,
    contents := some ⟨some "m"⟩, user := none, html_body := some "h" }

/-- The post `get_post` returns for `demoRawPost`. -/
def demoPost : Post :=
  { id := "i", title := "t", author := "a", date := 5, content_html := "h",
    content_markdown := "m", slug := "s", page_url := "u", base_score := 1,
    word_count := 2 }

/-- Witness for C6's theorem at a concrete envelope. -/
theorem get_post_page_url_verbatim_witness :
    get_post (mkPostEnv { demoRawPost with page_url := "u2" }) =
      Except.map (fun post => { post with page_url := "u2" })
        (get_post (mkPostEnv demoRawPost)) ∧
    demoPost.page_url = demoRawPost.page_url :=
  ⟨(get_post_page_url_verbatim demoRawPost "u2").1,
   (get_post_page_url_verbatim demoRawPost "u2").2 demoPost rfl⟩

/-! ## The comments pipeline -/

/-- Unfolding `get_comments` on a fully-present envelope: it is the
flatten/filter/map/collect pipeline on the results list. -/
lemma get_comments_unfold (rs : List (Option RawComment)) :
    get_comments (mkCommentsEnv rs) =
      mapPairs ((rs.filterMap id).filter keepComment) >>=
        (fun ps => pure (fromPairs ps)) := rfl

/-- A comment with a true deleted flag, or an absent or empty HTML body,
fails the filter. -/
lemma keepComment_false_of (c : RawComment)
    (h : c.deleted = some true ∨ c.html_body = none ∨ c.html_body = some "") :
    keepComment c = false := by
  have hemp : ("" : String).isEmpty = true := rfl
  rcases h with h | h | h <;> simp [keepComment, h, hemp]

/-- Claim C2: raw comment entries whose deleted flag is true, or whose
rendered HTML body is absent or empty, contribute nothing to `get_comments`:
the call's outcome with such an entry in the results list is identical to the
outcome without it (no `Comment` produced, no error caused); and an absent
deleted flag is treated exactly as a false one. -/
theorem get_comments_filters_deleted_and_empty :
    (∀ (l1 l2 : List (Option RawComment)) (c : RawComment),
       c.deleted = some true ∨ c.html_body = none ∨ c.html_body = some "" →
       get_comments (mkCommentsEnv (l1 ++ some c :: l2)) =
         get_comments (mkCommentsEnv (l1 ++ l2))) ∧
    (∀ (c : RawComment),
       keepComment { c with deleted := none } =
         keepComment { c with deleted := some false }) := by
  constructor
  · intro l1 l2 c h
    have hk : keepComment c = false := keepComment_false_of c h
    rw [get_comments_unfold, get_comments_unfold]
    have hL : ((l1 ++ some c :: l2).filterMap id).filter keepComment =
        ((l1 ++ l2).filterMap id).filter keepComment := by
      simp [List.filterMap_append, List.filter_append, hk]
    rw [hL]
  · intro c
    rfl

/-- A surviving comment used by several witnesses. -/
def demoRawComment : RawComment :=
  { id := some "c1", parent_comment_id := none, author := some "a",
    posted_at := some 3, page_url := some "pu", base_score := some 1,
    vote_count := some 2, html_body := some "hb", deleted := some false,
    contents := some ⟨some "md"⟩, user := none }

/-- Witness for C2's theorem: appending a deleted comment to a singleton
results list leaves the `get_comments` outcome unchanged. -/
theorem get_comments_filters_deleted_and_empty_witness :
    get_comments (mkCommentsEnv [some demoRawComment,
        some { demoRawComment with deleted := some true }]) =
      get_comments (mkCommentsEnv [some demoRawComment]) :=
  get_comments_filters_deleted_and_empty.1 [some demoRawComment] []
    { demoRawComment with deleted := some true } (Or.inl rfl)

/-- Claim C7: the comments-query prelude checks, in order: absent `data`
gives the malformed-response error naming `data`; absent comments container
gives the one naming `comments`; absent results list gives the one naming
`comments.results`; and with the list present, every null slot is discarded
without affecting the outcome. -/
theorem get_comments_prelude_and_sparse (resp : CommentsResponse) :
    (resp.data = none →
      get_comments resp =
        Except.error (CommentsFailure.apiError (Error.MalformattedResponse "data"))) ∧
    (∀ d, resp.data = some d → d.comments = none →
      get_comments resp =
        Except.error (CommentsFailure.apiError (Error.MalformattedResponse "comments"))) ∧
    (∀ d cc, resp.data = some d → d.comments = some cc → cc.results = none →
      get_comments resp =
        Except.error (CommentsFailure.apiError (Error.MalformattedResponse "comments.results"))) ∧
    (∀ (l1 l2 : List (Option RawComment)),
      get_comments (mkCommentsEnv (l1 ++ none :: l2)) =
        get_comments (mkCommentsEnv (l1 ++ l2))) := by
  refine ⟨?_, ?_, ?_, ?_⟩
  · intro h
    rcases resp with ⟨d⟩
    cases h
    rfl
  · intro d h hc
    rcases resp with ⟨_⟩
    cases h
    rcases d with ⟨cc⟩
    cases hc
    rfl
  · intro d cc h hc hr
    rcases resp with ⟨_⟩
    cases h
    rcases d with ⟨_⟩
    cases hc
    rcases cc with ⟨r⟩
    cases hr
    rfl
  · intro l1 l2
    rw [get_comments_unfold, get_comments_unfold]
    have hL : ((l1 ++ none :: l2).filterMap id).filter keepComment =
        ((l1 ++ l2).filterMap id).filter keepComment := by
      simp [List.filterMap_append]
    rw [hL]

/-- Witness for C7's theorem at the three prelude envelopes and at a
concrete sparse results list. -/
theorem get_comments_prelude_and_sparse_witness :
    get_comments ⟨none⟩ =
      Except.error (CommentsFailure.apiError (Error.MalformattedResponse "data")) ∧
    get_comments ⟨some ⟨none⟩⟩ =
      Except.error (CommentsFailure.apiError (Error.MalformattedResponse "comments")) ∧
    get_comments ⟨some ⟨some ⟨none⟩⟩⟩ =
      Except.error (CommentsFailure.apiError (Error.MalformattedResponse "comments.results")) ∧
    get_comments (mkCommentsEnv [some demoRawComment, none]) =
      get_comments (mkCommentsEnv [some demoRawComment]) :=
  ⟨(get_comments_prelude_and_sparse ⟨none⟩).1 rfl,
   (get_comments_prelude_and_sparse ⟨some ⟨none⟩⟩).2.1 ⟨none⟩ rfl rfl,
   (get_comments_prelude_and_sparse ⟨some ⟨some ⟨none⟩⟩⟩).2.2.1 ⟨some ⟨none⟩⟩ ⟨none⟩ rfl rfl rfl,
   (get_comments_prelude_and_sparse ⟨some ⟨some ⟨some [some demoRawComment, none]⟩⟩⟩).2.2.2
     [some demoRawComment] []⟩

/-! ## Lemmas about the map and collect stages -/

/-- Distribution of `mapPairs` over append, fail-fast from the left. -/
lemma mapPairs_append (xs ys : List RawComment) :
    mapPairs (xs ++ ys) =
      mapPairs xs >>= (fun as => mapPairs ys >>= (fun bs => pure (as ++ bs))) := by
  induction xs with
  | nil =>
    simp only [List.nil_append, mapPairs]
    cases hys : mapPairs ys <;> simp [bind_ok, bind_error, pure_ok]
  | cons c rest ih =>
    simp only [List.cons_append, mapPairs, List.append_eq]
    cases hc : mapComment c with
    | error e => simp only [bind_error]
    | ok cm =>
      simp only [bind_ok]
      rw [ih]
      cases hrest : mapPairs rest with
      | error e => simp only [bind_error]
      | ok as =>
        simp only [bind_ok]
        cases hys : mapPairs ys with
        | error e => simp [bind_error, bind_ok, pure_ok]
        | ok bs => simp [bind_ok, pure_ok]

/-- Every pair a successful `mapPairs` produces keys a comment by its own id. -/
lemma mapPairs_ok_mem (cs : List RawComment) (ps : List (String × Comment))
    (h : mapPairs cs = Except.ok ps) :
    ∀ kv ∈ ps, kv.2.id = kv.1 := by
  induction cs generalizing ps with
  | nil =>
    simp only [mapPairs] at h
    injection h with h
    subst h
    intro kv hkv
    exact absurd hkv (List.not_mem_nil kv)
  | cons c rest ih =>
    simp only [mapPairs] at h
    rcases hc : mapComment c with e | cm <;> rw [hc] at h
    · exact Except.noConfusion h
    simp only [bind_ok] at h
    rcases hrest : mapPairs rest with e | ps' <;> rw [hrest] at h
    · exact Except.noConfusion h
    simp only [bind_ok, pure_ok] at h
    injection h with h
    subst h
    intro kv hkv
    rcases List.mem_cons.mp hkv with hkv | hkv
    · subst hkv
      rfl
    · exact ih ps' hrest kv hkv

/-- Collecting into the map after an earlier split of the pair list. -/
lemma fromPairs_append_single (ps : List (String × Comment)) (k : String) (v : Comment) :
    fromPairs (ps ++ [(k, v)]) = insertComment (fromPairs ps) k v := by
  simp [fromPairs, List.foldl_append]

/-- Unfolding `insertComment` at a matching head key. -/
lemma insertComment_cons_eq (rest : List (String × Comment)) (k : String) (v v' : Comment) :
    insertComment ((k, v') :: rest) k v = (k, v) :: rest := by
  simp [insertComment]

/-- Unfolding `insertComment` at a non-matching head key. -/
lemma insertComment_cons_ne (rest : List (String × Comment)) (k k' : String)
    (v v' : Comment) (h : k' ≠ k) :
    insertComment ((k', v') :: rest) k v = (k', v') :: insertComment rest k v := by
  simp [insertComment, h]

/-- Looking up the freshly inserted key. -/
lemma lookup_insertComment_self (m : List (String × Comment)) (k : String) (v : Comment) :
    List.lookup k (insertComment m k v) = some v := by
  induction m with
  | nil => simp [insertComment, List.lookup]
  | cons kv rest ih =>
    rcases kv with ⟨k', v'⟩
    by_cases hk : k' = k
    · subst hk
      rw [insertComment_cons_eq]
      simp [List.lookup]
    · rw [insertComment_cons_ne rest k k' v v' hk]
      simp [List.lookup, beq_false_of_ne (Ne.symm hk), ih]

/-- Keys present after an insert. -/
lemma mem_keys_insertComment (m : List (String × Comment)) (k a : String) (v : Comment) :
    a ∈ (insertComment m k v).map Prod.fst ↔ a = k ∨ a ∈ m.map Prod.fst := by
  induction m with
  | nil => simp [insertComment]
  | cons kv rest ih =>
    rcases kv with ⟨k', v'⟩
    by_cases hk : k' = k
    · subst hk
      rw [insertComment_cons_eq]
      simp
    · rw [insertComment_cons_ne rest k k' v v' hk]
      simp only [List.map_cons, List.mem_cons, ih]
      tauto

/-- Insert keeps the keys duplicate-free. -/
lemma keys_nodup_insertComment (m : List (String × Comment)) (k : String) (v : Comment)
    (h : (m.map Prod.fst).Nodup) : ((insertComment m k v).map Prod.fst).Nodup := by
  induction m with
  | nil => simp [insertComment]
  | cons kv rest ih =>
    rcases kv with ⟨k', v'⟩
    simp only [List.map_cons, List.nodup_cons] at h
    obtain ⟨hnotin, hrest⟩ := h
    by_cases hk : k' = k
    · subst hk
      rw [insertComment_cons_eq]
      simp only [List.map_cons, List.nodup_cons]
      exact ⟨hnotin, hrest⟩
    · rw [insertComment_cons_ne rest k k' v v' hk]
      simp only [List.map_cons, List.nodup_cons, mem_keys_insertComment]
      refine ⟨fun hc => ?_, ih hrest⟩
      rcases hc with hc | hc
      · exact hk hc
      · exact hnotin hc

/-- Folding inserts over any duplicate-free start keeps keys duplicate-free. -/
lemma keys_nodup_foldl_insert (ps : List (String × Comment)) :
    ∀ (m : List (String × Comment)), (m.map Prod.fst).Nodup →
      ((ps.foldl (fun m kv => insertComment m kv.1 kv.2) m).map Prod.fst).Nodup := by
  induction ps with
  | nil => intro m hm; simpa using hm
  | cons kv rest ih =>
    intro m hm
    exact ih (insertComment m kv.1 kv.2) (keys_nodup_insertComment m kv.1 kv.2 hm)

/-- The collected map has duplicate-free keys. -/
lemma fromPairs_keys_nodup (ps : List (String × Comment)) :
    ((fromPairs ps).map Prod.fst).Nodup :=
  keys_nodup_foldl_insert ps [] (by simp)

/-- A successful lookup means the key is among the map's keys. -/
lemma mem_keys_of_lookup (m : List (String × Comment)) (k : String) (v : Comment)
    (h : List.lookup k m = some v) : k ∈ m.map Prod.fst := by
  induction m with
  | nil => simp [List.lookup] at h
  | cons kv rest ih =>
    rcases kv with ⟨k', v'⟩
    by_cases hk : k = k'
    · subst hk
      simp
    · simp only [List.lookup, beq_false_of_ne hk] at h
      simp only [List.map_cons, List.mem_cons]
      exact Or.inr (ih h)

/-- Membership in an inserted map comes from the new pair or the old map. -/
lemma mem_insertComment (m : List (String × Comment)) (k : String) (v : Comment)
    (kv : String × Comment) (h : kv ∈ insertComment m k v) :
    kv = (k, v) ∨ kv ∈ m := by
  induction m with
  | nil => simpa [insertComment] using h
  | cons kv' rest ih =>
    rcases kv' with ⟨k', v'⟩
    by_cases hk : k' = k
    · subst hk
      rw [insertComment_cons_eq] at h
      rcases List.mem_cons.mp h with h | h
      · exact Or.inl h
      · exact Or.inr (List.mem_cons_of_mem _ h)
    · rw [insertComment_cons_ne rest k k' v v' hk] at h
      rcases List.mem_cons.mp h with h | h
      · exact Or.inr (List.mem_cons.mpr (Or.inl h))
      · rcases ih h with h' | h'
        · exact Or.inl h'
        · exact Or.inr (List.mem_cons_of_mem _ h')

/-- Entries of a fold of inserts come from the start map or the pair list. -/
lemma mem_foldl_insert (ps : List (String × Comment)) :
    ∀ (m : List (String × Comment)) (kv : String × Comment),
      kv ∈ ps.foldl (fun m kv => insertComment m kv.1 kv.2) m → kv ∈ m ∨ kv ∈ ps := by
  induction ps with
  | nil => intro m kv hm; exact Or.inl hm
  | cons q rest ih =>
    intro m kv hm
    rcases ih (insertComment m q.1 q.2) kv hm with h' | h'
    · rcases mem_insertComment m q.1 q.2 kv h' with h'' | h''
      · exact Or.inr (List.mem_cons.mpr (Or.inl h''))
      · exact Or.inl h''
    · exact Or.inr (List.mem_cons_of_mem _ h')

/-- Every entry of the collected map comes from the pair list. -/
lemma mem_fromPairs (ps : List (String × Comment)) (kv : String × Comment)
    (h : kv ∈ fromPairs ps) : kv ∈ ps := by
  rcases mem_foldl_insert ps [] kv h with h' | h'
  · exact absurd h' (List.not_mem_nil kv)
  · exact h'

/-- Every pair a successful `mapPairs` produces comes from mapping one of
the input comments. -/
lemma mapPairs_ok_mem_source (cs : List RawComment) (ps : List (String × Comment))
    (h : mapPairs cs = Except.ok ps) :
    ∀ kv ∈ ps, ∃ c ∈ cs, mapComment c = Except.ok kv.2 := by
  induction cs generalizing ps with
  | nil =>
    simp only [mapPairs] at h
    injection h with h
    subst h
    intro kv hkv
    exact absurd hkv (List.not_mem_nil kv)
  | cons c rest ih =>
    simp only [mapPairs] at h
    rcases hc : mapComment c with e | cm <;> rw [hc] at h
    · exact Except.noConfusion h
    simp only [bind_ok] at h
    rcases hrest : mapPairs rest with e | ps' <;> rw [hrest] at h
    · exact Except.noConfusion h
    simp only [bind_ok, pure_ok] at h
    injection h with h
    subst h
    intro kv hkv
    rcases List.mem_cons.mp hkv with hkv | hkv
    · subst hkv
      exact ⟨c, List.mem_cons_self c rest, hc⟩
    · obtain ⟨c', hc', hcm'⟩ := ih ps' hrest kv hkv
      exact ⟨c', List.mem_cons_of_mem _ hc', hcm'⟩

/-- Collecting an appended pair list continues the fold from the first
part's map. -/
lemma fromPairs_append (xs ys : List (String × Comment)) :
    fromPairs (xs ++ ys) =
      ys.foldl (fun m kv => insertComment m kv.1 kv.2) (fromPairs xs) := by
  simp [fromPairs, List.foldl_append]

/-- Inserting under a different key does not change a lookup. -/
lemma lookup_insertComment_ne (m : List (String × Comment)) (k k' : String)
    (v : Comment) (hne : k' ≠ k) :
    List.lookup k (insertComment m k' v) = List.lookup k m := by
  induction m with
  | nil => simp [insertComment, List.lookup, beq_false_of_ne (Ne.symm hne)]
  | cons kv rest ih =>
    rcases kv with ⟨k'', v''⟩
    by_cases hk : k'' = k'
    · subst hk
      rw [insertComment_cons_eq]
      simp [List.lookup, beq_false_of_ne (Ne.symm hne)]
    · rw [insertComment_cons_ne rest k' k'' v v'' hk]
      by_cases hqk : k = k''
      · subst hqk
        simp [List.lookup]
      · simp [List.lookup, beq_false_of_ne hqk, ih]

/-- Folding inserts whose keys all differ from `k` does not change the
lookup at `k`. -/
lemma lookup_foldl_insert_ne (ps : List (String × Comment)) :
    ∀ (m : List (String × Comment)) (k : String), (∀ kv ∈ ps, kv.1 ≠ k) →
      List.lookup k (ps.foldl (fun m kv => insertComment m kv.1 kv.2) m) =
        List.lookup k m := by
  induction ps with
  | nil => intro m k _; rfl
  | cons q rest ih =>
    intro m k h
    have hq : q.1 ≠ k := h q (List.mem_cons_self q rest)
    rw [List.foldl_cons,
      ih (insertComment m q.1 q.2) k (fun kv hkv => h kv (List.mem_cons_of_mem q hkv))]
    exact lookup_insertComment_ne m k q.1 q.2 hq

/-- Claim C8: when two surviving comments of one `get_comments` call carry
the same identifier, the returned mapping has exactly one entry for that
identifier, whose value is the `Comment` built from the later of the
duplicate entries.  The later duplicate `c2` may sit anywhere in the results
list; the tail `l3` after it is arbitrary, restricted only to survivors with
other ids (otherwise one of them would be the later duplicate). -/
theorem get_comments_later_duplicate_wins
    (l1 l2 l3 : List (Option RawComment)) (c1 c2 : RawComment)
    (cm1 cm2 : Comment) (m : List (String × Comment))
    (h1 : mapComment c1 = Except.ok cm1) (h2 : mapComment c2 = Except.ok cm2)
    (hk1 : keepComment c1 = true) (hk2 : keepComment c2 = true)
    (hid : cm1.id = cm2.id)
    (hlater : ∀ c ∈ l3.filterMap id, keepComment c = true →
      ∀ cm, mapComment c = Except.ok cm → cm.id ≠ cm2.id)
    (h : get_comments (mkCommentsEnv (l1 ++ some c1 :: l2 ++ some c2 :: l3)) =
      Except.ok m) :
    List.lookup cm2.id m = some cm2 ∧ (m.map Prod.fst).count cm2.id = 1 := by
  rw [get_comments_unfold] at h
  have hL : ((l1 ++ some c1 :: l2 ++ some c2 :: l3).filterMap id).filter keepComment =
      ((l1.filterMap id).filter keepComment) ++
        (c1 :: (((l2.filterMap id).filter keepComment) ++
          (c2 :: ((l3.filterMap id).filter keepComment)))) := by
    simp [List.filterMap_append, List.filter_append, hk1, hk2]
  rw [hL, mapPairs_append] at h
  rcases hP1 : mapPairs ((l1.filterMap id).filter keepComment) with e | P1 <;> rw [hP1] at h
  · exact Except.noConfusion h
  simp only [bind_ok] at h
  simp only [mapPairs, h1, bind_ok] at h
  rw [mapPairs_append] at h
  rcases hP2 : mapPairs ((l2.filterMap id).filter keepComment) with e | P2 <;> rw [hP2] at h
  · exact Except.noConfusion h
  simp only [bind_ok] at h
  simp only [mapPairs, h2, bind_ok] at h
  rcases hP3 : mapPairs ((l3.filterMap id).filter keepComment) with e | P3 <;> rw [hP3] at h
  · exact Except.noConfusion h
  simp only [bind_ok, pure_ok] at h
  injection h with h
  subst h
  have hP3ne : ∀ kv ∈ P3, kv.1 ≠ cm2.id := by
    intro kv hkv
    obtain ⟨c, hcF, hcm⟩ := mapPairs_ok_mem_source _ P3 hP3 kv hkv
    have hmem' := List.mem_filter.mp hcF
    have hkeq := mapPairs_ok_mem _ P3 hP3 kv hkv
    have hne := hlater c hmem'.1 hmem'.2 kv.2 hcm
    rw [← hkeq]
    exact hne
  have hsplit : P1 ++ (cm1.id, cm1) :: (P2 ++ (cm2.id, cm2) :: P3) =
      ((P1 ++ (cm1.id, cm1) :: P2) ++ [(cm2.id, cm2)]) ++ P3 := by
    simp
  rw [hsplit, fromPairs_append, fromPairs_append_single]
  have hlook : List.lookup cm2.id
      (P3.foldl (fun m kv => insertComment m kv.1 kv.2)
        (insertComment (fromPairs (P1 ++ (cm1.id, cm1) :: P2)) cm2.id cm2)) = some cm2 := by
    rw [lookup_foldl_insert_ne P3 _ cm2.id hP3ne]
    exact lookup_insertComment_self _ _ _
  refine ⟨hlook, ?_⟩
  have hnd := keys_nodup_foldl_insert P3
    (insertComment (fromPairs (P1 ++ (cm1.id, cm1) :: P2)) cm2.id cm2)
    (keys_nodup_insertComment _ cm2.id cm2 (fromPairs_keys_nodup _))
  have hmem := mem_keys_of_lookup _ cm2.id cm2 hlook
  exact List.count_eq_one_of_mem hnd hmem

/-- The comment `mapComment` produces for `demoRawComment`. -/
def demoMappedComment : Comment :=
  { id := "c1", parent_comment_id := none, author := "a", posted_at := 3,
    page_url := "pu", base_score := 1, vote_count := 2, content_html := "hb",
    content_markdown := "md" }

/-- A second surviving raw comment with the same id as `demoRawComment` but
different markdown. -/
def dupRawComment : RawComment :=
  { demoRawComment with contents := some ⟨some "md2"⟩ }

/-- The comment `mapComment` produces for `dupRawComment`. -/
def dupMappedComment : Comment :=
  { demoMappedComment with content_markdown := "md2" }

/-- A surviving raw comment with a different id, following the duplicates. -/
def otherRawComment : RawComment :=
  { demoRawComment with id := some "c9" }

/-- The comment `mapComment` produces for `otherRawComment`. -/
def otherMappedComment : Comment :=
  { demoMappedComment with id := "c9" }

/-- Witness for C8's theorem: two surviving comments share id "c1" and a
third with another id follows them; the mapping holds exactly the later
duplicate under "c1". -/
theorem get_comments_later_duplicate_wins_witness :
    List.lookup "c1" [("c1", dupMappedComment), ("c9", otherMappedComment)] =
      some dupMappedComment ∧
    ([("c1", dupMappedComment), ("c9", otherMappedComment)].map Prod.fst).count "c1" = 1 :=
  get_comments_later_duplicate_wins [] [] [some otherRawComment]
    demoRawComment dupRawComment demoMappedComment dupMappedComment
    [("c1", dupMappedComment), ("c9", otherMappedComment)]
    rfl rfl (by decide) (by decide) rfl
    (by
      intro c hc hk cm hcm
      have hceq : c = otherRawComment := by simpa using hc
      subst hceq
      have hval : mapComment otherRawComment = Except.ok otherMappedComment := rfl
      rw [hval] at hcm
      injection hcm with hcm
      subst hcm
      decide)
    rfl

/-- Claim C9: every key of a mapping returned by `get_comments` equals the
`id` of the `Comment` it maps to. -/
theorem get_comments_keyed_by_id (resp : CommentsResponse)
    (m : List (String × Comment)) (k : String) (cm : Comment)
    (h : get_comments resp = Except.ok m) (hmem : (k, cm) ∈ m) : cm.id = k := by
  rcases resp with ⟨_ | ⟨_ | ⟨_ | rs⟩⟩⟩
  · exact Except.noConfusion h
  · exact Except.noConfusion h
  · exact Except.noConfusion h
  · have h' : get_comments (mkCommentsEnv rs) = Except.ok m := h
    rw [get_comments_unfold] at h'
    rcases hp : mapPairs ((rs.filterMap id).filter keepComment) with e | ps <;> rw [hp] at h'
    · exact Except.noConfusion h'
    simp only [bind_ok, pure_ok] at h'
    injection h' with h'
    subst h'
    exact mapPairs_ok_mem _ ps hp (k, cm) (mem_fromPairs ps (k, cm) hmem)

/-- Witness for C9's theorem at a concrete one-comment envelope. -/
theorem get_comments_keyed_by_id_witness : demoMappedComment.id = "c1" :=
  get_comments_keyed_by_id (mkCommentsEnv [some demoRawComment])
    [("c1", demoMappedComment)] "c1" demoMappedComment rfl
    (List.mem_singleton.mpr rfl)

/-- Claim C10: for every raw comment that survives the filter, the rendered
HTML body is present and non-empty, so the extraction of `content_html`
cannot hit its panic branch: `mapComment` never fails with the
html-body-missing panic on a surviving comment. -/
theorem surviving_comment_html_extract_safe (c : RawComment)
    (h : keepComment c = true) :
    (∃ s, c.html_body = some s ∧ s.isEmpty = false) ∧
    (∀ u, mapComment c ≠
      Except.error (CommentsFailure.panic (CommentPanic.html_body_missing u))) := by
  rcases c with ⟨cid, cpar, cau, cpa, cpu, cbs, cvc, chb, cdel, cct, cus⟩
  rcases chb with _ | s
  · exact absurd h (by simp [keepComment])
  have h' : (!(cdel.getD false) && !s.isEmpty) = true := h
  have hs : s.isEmpty = false := by
    have h2 := h'
    simp at h2
    exact h2.2
  refine ⟨⟨s, rfl, hs⟩, ?_⟩
  intro u hcontra
  rcases cpu with _ | pu <;> rcases cct with _ | ⟨_ | md⟩ <;> rcases cid with _ | i <;>
    rcases cpa with _ | pa <;> rcases cbs with _ | bs <;> rcases cvc with _ | vc <;>
    simp [mapComment, expectP, bind_ok, bind_error, pure_ok] at hcontra

/-- Witness for C10's theorem at a concrete surviving comment. -/
theorem surviving_comment_html_extract_safe_witness :
    keepComment demoRawComment = true ∧
    ((∃ s, demoRawComment.html_body = some s ∧ s.isEmpty = false) ∧
     (∀ u, mapComment demoRawComment ≠
       Except.error (CommentsFailure.panic (CommentPanic.html_body_missing u)))) :=
  ⟨by decide, surviving_comment_html_extract_safe demoRawComment (by decide)⟩

end LW
